import Mathlib

/-!
Verification of the render-python transform data model
(`renderapi/tilespec.py` and `renderapi/transforms/ThinPlateSpline.py`).

Numbers are modelled by `ℚ` (exact arithmetic standing for the Python
floats; every concrete value appearing in the claims is exactly
representable). Python dictionaries coming off the wire are modelled by
structures whose fields are the wire keys; a key the code reads that a
well-formed document does not carry is modelled by an `Option` field that
is `none` for well-formed documents. Fallible Python code (exceptions)
is modelled with `Except PyErr`.
-/

namespace Render

/-- Python exceptions that the modelled code can raise. `renderError` is the
RenderError raised by `_process_dataString`; `linAlgError` is numpy's
`LinAlgError` raised by `np.linalg.inv` on an exactly singular matrix. -/
inductive PyErr where
  | keyError (k : String)
  | indexError (k : String)
  | nameError (n : String)
  | typeError
  | valueError
  | renderError
  | linAlgError
deriving DecidableEq

/-- Discriminator for `Except` results: `true` exactly when no exception
was raised. -/
def exceptIsOk {ε α : Type} : Except ε α → Bool
  | .ok _ => true
  | .error _ => false

instance {ε α : Type} [DecidableEq ε] [DecidableEq α] : DecidableEq (Except ε α) :=
  fun a b =>
    match a, b with
    | .ok x, .ok y => decidable_of_iff (x = y) (by simp)
    | .error x, .error y => decidable_of_iff (x = y) (by simp)
    | .ok _, .error _ => .isFalse (by simp)
    | .error _, .ok _ => .isFalse (by simp)

/-! ### Decimal tokens

`AffineModel.from_dict` runs `d['dataString'].split()` and `map(float, ds)`;
`AffineModel.to_dict` renders each matrix entry with the printf format
`"%f"` (fixed six fractional digits). We model `str.split()` (split on
blanks, dropping empty fields), plain decimal `float` literals (optional
sign, digits, optional fractional part — the exponent/`inf`/`nan` forms
accepted by Python never arise in this code's own output), and `"%f"`
formatting (value rounded to six fractional digits). -/

/-- Character for the decimal digit `n` (`n < 10`). -/
def digitChar (n : ℕ) : Char := Char.ofNat (48 + n)

/-- Numeric value of a string of decimal digit characters (most significant
first), the way `int`/`float` accumulate digits. -/
def digitsToNat (l : List Char) : ℕ := l.foldl (fun acc c => acc * 10 + (c.toNat - 48)) 0

/-- Decimal digits of `n`, most significant first; `fuel ≥ n` makes the
recursion structural. Empty for `n = 0` (the caller handles that case). -/
def natDigitsAux : ℕ → ℕ → List Char
  | 0, _ => []
  | fuel + 1, n => if n = 0 then [] else natDigitsAux fuel (n / 10) ++ [digitChar (n % 10)]

/-- Decimal digit string of `n`, most significant first, no leading zeros. -/
def natDigits (n : ℕ) : List Char := if n = 0 then ['0'] else natDigitsAux n n

/-- Python `str.split()` (no separator argument): split on runs of blanks,
dropping empty fields. `cur` accumulates the current token. -/
def splitWSAux : List Char → List Char → List (List Char)
  | [], cur => if cur.isEmpty then [] else [cur]
  | c :: rest, cur =>
    if c = ' ' then (if cur.isEmpty then splitWSAux rest [] else cur :: splitWSAux rest [])
    else splitWSAux rest (cur ++ [c])

/-- Python `str.split()` on a character list. -/
def splitWS (l : List Char) : List (List Char) := splitWSAux l []

/-- Python `float` on an unsigned decimal literal: digits, optionally
followed by a point and further digits ("5", "5.", "5.25", ".25").
Anything else is a ValueError, modelled as `none`. -/
def parseUnsigned (l : List Char) : Option ℚ :=
  let intPart := l.takeWhile Char.isDigit
  let rest := l.dropWhile Char.isDigit
  match rest with
  | [] => if intPart.isEmpty then none else some ((digitsToNat intPart : ℚ))
  | c :: frac =>
    if c = '.' && frac.all Char.isDigit && (!intPart.isEmpty || !frac.isEmpty) then
      some ((digitsToNat intPart : ℚ) + (digitsToNat frac : ℚ) / (10 : ℚ) ^ frac.length)
    else none

/-- Python `float` on a token: optional sign, then an unsigned literal. -/
def parseFloatL (l : List Char) : Option ℚ :=
  match l with
  | [] => none
  | c :: r =>
    if c = '-' then (parseUnsigned r).map Neg.neg
    else if c = '+' then parseUnsigned r
    else parseUnsigned (c :: r)

/-- Width-six zero-padded decimal digits of `k` (`k < 10^6`), as printed by
`"%f"` for the fractional part. -/
def pad6 (k : ℕ) : List Char := List.replicate (6 - (natDigits k).length) '0' ++ natDigits k

/-- The printf `"%f"` rendering of the value `q`: sign, integer part, point,
exactly six fractional digits, the value rounded to six fractional digits.
(For values within 5e-7 of zero the C library may print a "-0.000000" sign
that this model omits; no claim depends on such values.) -/
def fmtTok (q : ℚ) : List Char :=
  (if round (q * 1000000) < 0 then ['-'] else []) ++
    natDigits ((round (q * 1000000)).natAbs / 1000000) ++
    '.' :: pad6 ((round (q * 1000000)).natAbs % 1000000)

/-! ### AffineModel (`renderapi/tilespec.py`) -/

/-- Value of the class attribute `AffineModel.className`. -/
def affineClassName : String := "mpicbg.trakem2.transform.AffineModel2D"

/-- The matrix built by `AffineModel.load_M`: `np.identity(4)` with the
six parameters written into `M[0,0] M[0,1] M[1,0] M[1,1] M[0,3] M[1,3]`. -/
def loadM (m00 m01 m10 m11 b0 b1 : ℚ) : Matrix (Fin 4) (Fin 4) ℚ :=
  !![m00, m01, 0, b0; m10, m11, 0, b1; 0, 0, 1, 0; 0, 0, 0, 1]

instance : DecidableEq (Matrix (Fin 4) (Fin 4) ℚ) :=
  fun A B =>
    decidable_of_iff (∀ i j, A i j = B i j)
      ⟨fun h => Matrix.ext h, fun h i j => by rw [h]⟩

/-- `AffineModel`: the six scalar parameters together with the stored 4×4
matrix `self.M`. The two are coupled only by `load_M`; `invert` overwrites
`M` without touching the scalars, so the structure keeps both. -/
structure AffineModel where
  M00 : ℚ
  M01 : ℚ
  M10 : ℚ
  M11 : ℚ
  B0 : ℚ
  B1 : ℚ
  M : Matrix (Fin 4) (Fin 4) ℚ
deriving DecidableEq

/-- `AffineModel.__init__(M00, M01, M10, M11, B0, B1)` followed by the
`load_M` it performs. -/
def AffineModel.mk6 (m00 m01 m10 m11 b0 b1 : ℚ) : AffineModel :=
  ⟨m00, m01, m10, m11, b0, b1, loadM m00 m01 m10 m11 b0 b1⟩

/-- `AffineModel.from_dict`: split the dataString, `float` each token,
unpack exactly six values (any other count, or an unparsable token, is a
ValueError), then `load_M`. -/
def AffineModel.from_dictDS (s : String) : Except PyErr AffineModel :=
  match (splitWS s.data).mapM parseFloatL with
  | some [a, b, c, d, e, f] => .ok (AffineModel.mk6 a b c d e f)
  | _ => .error .valueError

/-- The dataString emitted by `AffineModel.to_dict`:
`"%f %f %f %f %f %f" % (M[0,0], M[0,1], M[1,0], M[1,1], M[0,3], M[1,3])` —
read from the stored matrix, in that fixed order. -/
def AffineModel.dataStringOut (A : AffineModel) : String :=
  String.mk (fmtTok (A.M 0 0) ++ ' ' :: fmtTok (A.M 0 1) ++ ' ' :: fmtTok (A.M 1 0) ++
    ' ' :: fmtTok (A.M 1 1) ++ ' ' :: fmtTok (A.M 0 3) ++ ' ' :: fmtTok (A.M 1 3))

/-- `convert_to_point_vector` on one 2-D row: append a zero third
coordinate and a unit homogeneous coordinate. -/
def homog2 (p : ℚ × ℚ) : Fin 4 → ℚ := ![p.1, p.2, 0, 1]

/-- `convert_to_point_vector` on one 3-D row: append a unit homogeneous
coordinate. -/
def homog3 (p : ℚ × ℚ × ℚ) : Fin 4 → ℚ := ![p.1, p.2.1, p.2.2, 1]

/-- `convert_points_vector_to_array` on one row with `Nd = 2`: keep the
first two components, each divided by the homogeneous coordinate. -/
def proj2 (v : Fin 4 → ℚ) : ℚ × ℚ := (v 0 / v 3, v 1 / v 3)

/-- `convert_points_vector_to_array` on one row with `Nd = 3`. -/
def proj3 (v : Fin 4 → ℚ) : ℚ × ℚ × ℚ := (v 0 / v 3, v 1 / v 3, v 2 / v 3)

/-- `AffineModel.tform` on a batch of 2-D points: homogenize, multiply by
`self.M`, project back. -/
def AffineModel.tform2 (A : AffineModel) (pts : List (ℚ × ℚ)) : List (ℚ × ℚ) :=
  pts.map fun p => proj2 (A.M.mulVec (homog2 p))

/-- `AffineModel.tform` on a batch of 3-D points. -/
def AffineModel.tform3 (A : AffineModel) (pts : List (ℚ × ℚ × ℚ)) : List (ℚ × ℚ × ℚ) :=
  pts.map fun p => proj3 (A.M.mulVec (homog3 p))

/-- `np.linalg.inv`: raises LinAlgError on an exactly singular matrix,
otherwise returns the unique matrix inverse (written here through the
adjugate, the standard closed form of the inverse). -/
def npLinalgInv (A : Matrix (Fin 4) (Fin 4) ℚ) : Except PyErr (Matrix (Fin 4) (Fin 4) ℚ) :=
  if A.det = 0 then .error .linAlgError else .ok (A.det⁻¹ • A.adjugate)

/-- `AffineModel.inverse_tform` on a batch of 2-D points: the `tform`
pipeline using `np.linalg.inv(self.M)`. -/
def AffineModel.inverse_tform2 (A : AffineModel) (pts : List (ℚ × ℚ)) :
    Except PyErr (List (ℚ × ℚ)) :=
  (npLinalgInv A.M).map fun Mi => pts.map fun p => proj2 (Mi.mulVec (homog2 p))

/-- `AffineModel.inverse_tform` on a batch of 3-D points. -/
def AffineModel.inverse_tform3 (A : AffineModel) (pts : List (ℚ × ℚ × ℚ)) :
    Except PyErr (List (ℚ × ℚ × ℚ)) :=
  (npLinalgInv A.M).map fun Mi => pts.map fun p => proj3 (Mi.mulVec (homog3 p))

/-- `AffineModel.invert`: `Ai = AffineModel()` (all six parameters left at
their identity defaults) and then `Ai.M = np.linalg.inv(self.M)` — the
scalar parameters are not recomputed from the new matrix. -/
def AffineModel.invert (A : AffineModel) : Except PyErr AffineModel :=
  (npLinalgInv A.M).map fun Mi => ⟨1, 0, 0, 1, 0, 0, Mi⟩

/-- The invariant claimed for `AffineModel`: the stored matrix is exactly
`load_M` of the six scalar parameters (top-left 2×2 block and the top two
entries of the last column are the parameters, every other entry is the
identity's). -/
def affineInvariant (A : AffineModel) : Prop :=
  A.M = loadM A.M00 A.M01 A.M10 A.M11 A.B0 A.B1

/-! ### ThinPlateSplineTransform (`renderapi/transforms/ThinPlateSpline.py`)

`_process_dataString` splits the dataString into
`["ThinPlateSplineR2LogR", ndims, nLm, block1, block2]` and base64-decodes
the two binary blocks into flat numeric vectors (`decodeBase64` lives in
`renderapi/utils.py`, outside the sources; we model the function on the
already-decoded vectors, `none` standing for the literal `"null"` first
block). numpy slicing `v[0:k]` takes at most `k` leading elements and
`v[k:]` drops them; `reshape(r, c)` raises ValueError unless the array
holds exactly `r*c` elements — the ValueError is caught and re-raised as a
RenderError. -/

/-- numpy `v.reshape(r, c)`: `r` rows of `c` columns, or ValueError
(`none`) when the element count is not exactly `r*c`. -/
def reshape (l : List ℚ) (r c : ℕ) : Option (List (List ℚ)) :=
  if l.length = r * c then some ((List.range r).map fun i => (l.drop (i * c)).take c)
  else none

/-- The numeric fields set by `_process_dataString`: `ndims`, `nLm`, the
optional affine part (`aMtx`, `bVec`), and the landmark blocks `srcPts` and
`dMtxDat`. -/
structure TPSData where
  ndims : ℕ
  nLm : ℕ
  aMtx : Option (List (List ℚ))
  bVec : Option (List ℚ)
  srcPts : List (List ℚ)
  dMtxDat : List (List ℚ)
deriving DecidableEq

/-- `ThinPlateSplineTransform._process_dataString` on the decoded binary
blocks (`b1 = none` models the `"null"` first block; `ndims`/`nLm` are the
two integer header fields): `aMtx = values[0:ndims*ndims].reshape(...)`,
`bVec = values[ndims*ndims:]` (unvalidated), and the second block split
into `srcPts` and `dMtxDat`, each reshaped to `ndims × nLm`. A reshape
ValueError becomes a RenderError. -/
def processDataString (b1 : Option (List ℚ)) (b2 : List ℚ) (ndims nLm : ℕ) :
    Except PyErr TPSData :=
  match b1 with
  | some values =>
    match reshape (values.take (ndims * ndims)) ndims ndims with
    | none => .error .renderError
    | some am =>
      match reshape (b2.take (ndims * nLm)) ndims nLm,
          reshape (b2.drop (ndims * nLm)) ndims nLm with
      | some sp, some dm =>
        .ok ⟨ndims, nLm, some am, some (values.drop (ndims * ndims)), sp, dm⟩
      | _, _ => .error .renderError
  | none =>
    match reshape (b2.take (ndims * nLm)) ndims nLm,
        reshape (b2.drop (ndims * nLm)) ndims nLm with
    | some sp, some dm => .ok ⟨ndims, nLm, none, none, sp, dm⟩
    | _, _ => .error .renderError

/-- `ThinPlateSplineTransform`: `data = none` models an instance on which
`_process_dataString` never ran (no `dMtxDat`/`ndims`/... attributes, as
when constructed with `dataString=None`); `data = some d` models one whose
attributes were set by a successful `_process_dataString`. -/
structure TPS where
  data : Option TPSData
  transformId : Option String
  labels : Option (List String)
deriving DecidableEq

/-- `srcPtDisplacement(lnd, pt)`: the vector
`srcPts[d][lnd] - pt[d]` for `d < ndims`. -/
def srcPtDisplacement (t : TPSData) (lnd : ℕ) (pt : List ℚ) : List ℚ :=
  (List.range t.ndims).map fun d => (t.srcPts.getD d []).getD lnd 0 - pt.getD d 0

/-- `computeDeformationContribution(pt)`: starting from `np.zeros(ndims)`,
for each landmark add `nrm * dMtxDat[d, lnd]` to every dimension `d`, where
`nrm` stands for `r2Logr(np.linalg.norm(displacement))` — the transcendental
radial-basis kernel `r² · ln r` of the Euclidean norm, which involves real
square roots and logarithms and is therefore abstracted as the function
parameter `nrm`; no claim depends on its values. -/
def computeDeformationContribution (nrm : List ℚ → ℚ) (t : TPSData) (pt : List ℚ) :
    List ℚ :=
  (List.range t.nLm).foldl
    (fun result lnd =>
      (List.range t.ndims).map fun d =>
        result.getD d 0 + nrm (srcPtDisplacement t lnd pt) * (t.dMtxDat.getD d []).getD lnd 0)
    (List.replicate t.ndims 0)

/-- `ThinPlateSplineTransform.apply`: if the instance has no `dMtxDat`
attribute, return the point unchanged; otherwise return (only) the
deformation contribution. -/
def TPS.apply (nrm : List ℚ → ℚ) (t : TPS) (pt : List ℚ) : List ℚ :=
  match t.data with
  | none => pt
  | some d => computeDeformationContribution nrm d pt

/-! ### TileSpec and resolved collections (`renderapi/tilespec.py`)

Raw wire documents are modelled by structures whose fields are the wire
keys (a required key read with `d[k]` is a plain field, an optional key
read with `d.get(k, None)` is an `Option` field). The raw records inside
`transforms.specList` are modelled by `RawTransform`, keyed on the `type`
discriminator. -/

/-- A raw transform record from a `specList`: a leaf (`className`,
`dataString`, optional `transformId`), a reference (`refId`), a nested
list, or a record with any other `type` string. -/
inductive RawTransform where
  | leaf (className dataString : String) (transformId : Option String)
  | ref (refId : String)
  | tlist (specList : List RawTransform)
  | other (ty : String)

/-- A transform object as constructed by `TileSpec.from_dict`:
`ReferenceTransform(refId)`, an `AffineModel`, or a generic `Transform`
leaf storing `className`/`dataString`/`transformId` verbatim. -/
inductive ParsedTransform where
  | reference (refId : String)
  | affine (A : AffineModel)
  | generic (className dataString : String) (transformId : Option String)
deriving DecidableEq

/-- The transform-parsing loop of `TileSpec.from_dict` (lines 388–398):
for each record, `type == 'ref'` constructs a `ReferenceTransform` — but
the `self.tforms.append(tf)` statement is indented inside the
`type == 'leaf'` branch, so the reference is dropped; a leaf whose
`className` equals `AffineModel.className` is parsed as an `AffineModel`
(its `from_dict` may raise ValueError), any other leaf becomes a generic
`Transform`, and both are appended; a `'list'` record (or any other
`type`) matches no branch and is skipped entirely. -/
def parseTformsCode : List RawTransform → Except PyErr (List ParsedTransform)
  | [] => .ok []
  | t :: rest =>
    match t with
    | .ref _ => parseTformsCode rest
    | .leaf cn ds tid =>
      if cn = affineClassName then
        match AffineModel.from_dictDS ds with
        | .error e => .error e
        | .ok A =>
          match parseTformsCode rest with
          | .error e => .error e
          | .ok tail => .ok (.affine A :: tail)
      else
        match parseTformsCode rest with
        | .error e => .error e
        | .ok tail => .ok (.generic cn ds tid :: tail)
    | .tlist _ => parseTformsCode rest
    | .other _ => parseTformsCode rest

/-- A raw filter record from `inputfilters.specList`: `ty` models the
presence of a `type` key (read and discarded by the code), plus the
`className`/`params` payload. -/
structure FilterDoc where
  ty : Option String
  className : String
  params : List (String × String)
deriving DecidableEq

/-- The filter-parsing loop of `TileSpec.from_dict` (lines 399–405): when
`inputfilters` is absent the list stays empty; otherwise, for each record,
`f['type']` is read (KeyError if absent) and then `Filter()` is called
without the required positional `classname` argument — in Python a
TypeError — so the first record always raises and no filter is ever
parsed. -/
def parseFiltersCode : Option (List FilterDoc) → Except PyErr (List FilterDoc)
  | none => .ok []
  | some [] => .ok []
  | some (f :: _) =>
    match f.ty with
    | none => .error (.keyError "type")
    | some _ => .error .typeError

/-- The raw `layout` sub-dictionary (all keys read with `.get(k, None)`). -/
structure LayoutDoc where
  sectionId : Option String
  camera : Option String
  temca : Option String
  imageRow : Option ℚ
  imageCol : Option ℚ
  stageX : Option ℚ
  stageY : Option ℚ
  rotation : Option ℚ
  pixelsize : Option ℚ
deriving DecidableEq

/-- `Layout` object fields as set by `Layout.from_dict` (note the key
renaming: `camera` → `cameraId`, `temca` → `scopeId`). -/
structure Layout where
  sectionId : Option String
  cameraId : Option String
  scopeId : Option String
  imageRow : Option ℚ
  imageCol : Option ℚ
  stageX : Option ℚ
  stageY : Option ℚ
  rotation : Option ℚ
  pixelsize : Option ℚ
deriving DecidableEq

/-- `Layout.from_dict`: total field-by-field copy with defaults. -/
def Layout.from_dict (d : LayoutDoc) : Layout :=
  ⟨d.sectionId, d.camera, d.temca, d.imageRow, d.imageCol, d.stageX, d.stageY,
    d.rotation, d.pixelsize⟩

/-- One mipmap level sub-dictionary (levels `'1'`/`'2'`/`'3'`; their
`imageUrl` is read with `.get`). -/
structure MipLevelDoc where
  imageUrl : Option String
deriving DecidableEq

/-- A raw TileSpec wire document. `mipmapLevels['0']['imageUrl']` is read
unconditionally, so it is a required field; `maskUrl` and levels 1–3 are
optional. -/
structure TileDoc where
  tileId : String
  z : ℚ
  width : ℚ
  height : ℚ
  minIntensity : ℚ
  maxIntensity : ℚ
  frameId : Option String
  layout : LayoutDoc
  minX : Option ℚ
  maxX : Option ℚ
  maxY : Option ℚ
  minY : Option ℚ
  mip0ImageUrl : String
  mip0MaskUrl : Option String
  mip1 : Option MipLevelDoc
  mip2 : Option MipLevelDoc
  mip3 : Option MipLevelDoc
  transforms : List RawTransform
  inputfilters : Option (List FilterDoc)

/-- A `TileSpec` object as populated by `TileSpec.from_dict`. -/
structure TileSpec where
  tileId : String
  z : ℚ
  width : ℚ
  height : ℚ
  minint : ℚ
  maxint : ℚ
  frameId : Option String
  layout : Layout
  minX : Option ℚ
  maxX : Option ℚ
  maxY : Option ℚ
  minY : Option ℚ
  imageUrl : String
  maskUrl : Option String
  scale2Url : Option String
  scale1Url : Option String
  scale3Url : Option String
  tforms : List ParsedTransform
  inputfilters : List FilterDoc

/-- `TileSpec.from_dict`: copy the scalar fields, parse the transform
chain (lines 388–398), then parse the input filters (lines 399–405). -/
def TileSpec.from_dict (d : TileDoc) : Except PyErr TileSpec :=
  match parseTformsCode d.transforms with
  | .error e => .error e
  | .ok tfs =>
    match parseFiltersCode d.inputfilters with
    | .error e => .error e
    | .ok fls =>
      .ok ⟨d.tileId, d.z, d.width, d.height, d.minIntensity, d.maxIntensity, d.frameId,
        Layout.from_dict d.layout, d.minX, d.maxX, d.maxY, d.minY,
        d.mip0ImageUrl, d.mip0MaskUrl,
        d.mip2.bind MipLevelDoc.imageUrl, d.mip1.bind MipLevelDoc.imageUrl,
        d.mip3.bind MipLevelDoc.imageUrl, tfs, fls⟩

/-- A raw `ResolvedTileSpecMap` wire document (the id-keyed mapping
shape). -/
structure RTSMapDoc where
  tileIdToSpecMap : List (String × TileDoc)
  transformIdToSpecMap : List (String × RawTransform)

/-- `ResolvedTileSpecMap.from_dict`: each tile value is parsed with
`TileSpec.from_dict`; the transform loop then executes `tf.Transform()` on
the local name `tf`, which is never assigned — in Python a NameError — so
the first transform entry always raises. -/
def ResolvedTileSpecMap.from_dict (d : RTSMapDoc) :
    Except PyErr (List TileSpec × List ParsedTransform) :=
  match (d.tileIdToSpecMap.mapM (fun kv => TileSpec.from_dict kv.2) :
      Except PyErr (List TileSpec)) with
  | .error e => .error e
  | .ok ts =>
    match d.transformIdToSpecMap with
    | [] => .ok (ts, [])
    | _ :: _ => .error (.nameError "tf")

/-- A raw `ResolvedTileSpecCollection` wire document (the count plus
position-indexed list shape). The code reads the misspelled key
`'tranformCount'`, which a well-formed document (whose key is
`'transformCount'`, as written by `to_dict`) does not contain: the
`tranformCount` field models that key and is `none` for well-formed
documents. -/
structure RTSCDoc where
  tileCount : ℕ
  tileSpecs : List TileDoc
  transformCount : ℕ
  transformSpecs : List RawTransform
  tranformCount : Option ℕ

/-- `ResolvedTileSpecCollection.from_dict`: parse `tileCount` tiles by
position (IndexError past the end), then read `d['tranformCount']` — a
KeyError for every well-formed document. When the misspelled key is
present, each transform record needs `className`/`dataString` (KeyError
otherwise), and the dispatch `tfd['className'] is 'mpicbg...'` compares
string identity, which is False for any string parsed off the wire, so a
generic `Transform` is constructed even for affine leaves. -/
def ResolvedTileSpecCollection.from_dict (d : RTSCDoc) :
    Except PyErr (List TileSpec × List ParsedTransform) :=
  match ((List.range d.tileCount).mapM (fun i =>
      match d.tileSpecs.get? i with
      | none => .error (.indexError "tileSpecs")
      | some td => TileSpec.from_dict td) : Except PyErr (List TileSpec)) with
  | .error e => .error e
  | .ok ts =>
    match d.tranformCount with
    | none => .error (.keyError "tranformCount")
    | some k =>
      match ((List.range k).mapM (fun i =>
          match d.transformSpecs.get? i with
          | none => (.error (.indexError "transformSpecs") : Except PyErr ParsedTransform)
          | some rt =>
            match rt with
            | .leaf cn ds tid => .ok (.generic cn ds tid)
            | _ => .error (.keyError "className")) : Except PyErr (List ParsedTransform)) with
      | .error e => .error e
      | .ok tfs => .ok (ts, tfs)

/-- A minimal well-formed tile document (empty transform chain, no
filters), used as concrete input by evaluations. -/
def sampleTileDoc : TileDoc :=
  ⟨"t1", 1, 100, 100, 0, 65000, none,
    ⟨none, none, none, none, none, none, none, none, none⟩,
    none, none, none, none, "file:img.png", none, none, none, none, [], none⟩

/-- The TileSpec that `TileSpec.from_dict` builds from `sampleTileDoc`. -/
def sampleTileSpec : TileSpec :=
  ⟨"t1", 1, 100, 100, 0, 65000, none,
    ⟨none, none, none, none, none, none, none, none, none⟩,
    none, none, none, none, "file:img.png", none, none, none, none, [], []⟩

/-- `sampleTileDoc` with one input filter record. -/
def sampleFilterTileDoc : TileDoc :=
  ⟨"t1", 1, 100, 100, 0, 65000, none,
    ⟨none, none, none, none, none, none, none, none, none⟩,
    none, none, none, none, "file:img.png", none, none, none, none, [],
    some [⟨none, "some.filter.Class", []⟩]⟩


/-! ### General lemmas about the affine matrix -/

/-- Determinant of the `load_M` matrix: the 2×2 determinant of the linear
part. -/
theorem det_loadM (a b c d e f : ℚ) : (loadM a b c d e f).det = a * d - b * c := by
  simp [loadM, Matrix.det_succ_row_zero, Fin.sum_univ_succ, Fin.succAbove, Fin.lt_def]
  ring

/-- Action of the `load_M` matrix on a homogeneous 4-vector. -/
theorem loadM_mulVec (a b c d e f : ℚ) (v : Fin 4 → ℚ) :
    (loadM a b c d e f).mulVec v =
      ![a * v 0 + b * v 1 + e * v 3, c * v 0 + d * v 1 + f * v 3, v 2, v 3] := by
  funext i
  fin_cases i <;>
    simp [loadM, Matrix.mulVec, Matrix.dotProduct, Fin.sum_univ_four]

/-- The adjugate closed form of the inverse is a left inverse. -/
theorem smulAdj_mul (A : Matrix (Fin 4) (Fin 4) ℚ) (h : A.det ≠ 0) :
    (A.det⁻¹ • A.adjugate) * A = 1 := by
  rw [Matrix.smul_mul, Matrix.adjugate_mul, smul_smul, inv_mul_cancel₀ h, one_smul]

/-- The adjugate closed form of the inverse is a right inverse. -/
theorem mul_smulAdj (A : Matrix (Fin 4) (Fin 4) ℚ) (h : A.det ≠ 0) :
    A * (A.det⁻¹ • A.adjugate) = 1 := by
  rw [Matrix.mul_smul, Matrix.mul_adjugate, smul_smul, inv_mul_cancel₀ h, one_smul]

/-- `np.linalg.inv` is characterized by any concrete right inverse: matrix
inverses are unique. -/
theorem npLinalgInv_eq (A B : Matrix (Fin 4) (Fin 4) ℚ) (h : A.det ≠ 0) (hAB : A * B = 1) :
    npLinalgInv A = .ok B := by
  rw [npLinalgInv, if_neg h]
  congr 1
  calc A.det⁻¹ • A.adjugate = (A.det⁻¹ • A.adjugate) * (A * B) := by rw [hAB, mul_one]
    _ = ((A.det⁻¹ • A.adjugate) * A) * B := by rw [Matrix.mul_assoc]
    _ = B := by rw [smulAdj_mul A h, one_mul]

/-- Forward-then-inverse pipeline on a single 2-D point is the identity. -/
theorem loadM_roundtrip2 (a b c d e f : ℚ) (h : (loadM a b c d e f).det ≠ 0) (p : ℚ × ℚ) :
    proj2 (((loadM a b c d e f).det⁻¹ • (loadM a b c d e f).adjugate).mulVec
      (homog2 (proj2 ((loadM a b c d e f).mulVec (homog2 p))))) = p := by
  obtain ⟨x, y⟩ := p
  have hw : (loadM a b c d e f).mulVec (homog2 (x, y)) =
      ![a * x + b * y + e, c * x + d * y + f, 0, 1] := by
    rw [loadM_mulVec]; funext i; fin_cases i <;> simp [homog2]
  have hh : homog2 (proj2 (![a * x + b * y + e, c * x + d * y + f, 0, 1] : Fin 4 → ℚ)) =
      ![a * x + b * y + e, c * x + d * y + f, 0, 1] := by
    funext i; fin_cases i <;> simp [homog2, proj2]
  rw [hw, hh, ← hw, Matrix.mulVec_mulVec, smulAdj_mul _ h, Matrix.one_mulVec]
  simp [homog2, proj2]

/-- Forward-then-inverse pipeline on a single 3-D point is the identity. -/
theorem loadM_roundtrip3 (a b c d e f : ℚ) (h : (loadM a b c d e f).det ≠ 0) (p : ℚ × ℚ × ℚ) :
    proj3 (((loadM a b c d e f).det⁻¹ • (loadM a b c d e f).adjugate).mulVec
      (homog3 (proj3 ((loadM a b c d e f).mulVec (homog3 p))))) = p := by
  obtain ⟨x, y, z⟩ := p
  have hw : (loadM a b c d e f).mulVec (homog3 (x, y, z)) =
      ![a * x + b * y + e, c * x + d * y + f, z, 1] := by
    rw [loadM_mulVec]; funext i; fin_cases i <;> simp [homog3]
  have hh : homog3 (proj3 (![a * x + b * y + e, c * x + d * y + f, z, 1] : Fin 4 → ℚ)) =
      ![a * x + b * y + e, c * x + d * y + f, z, 1] := by
    funext i; fin_cases i <;> simp [homog3, proj3]
  rw [hw, hh, ← hw, Matrix.mulVec_mulVec, smulAdj_mul _ h, Matrix.one_mulVec]
  simp [homog3, proj3]

/-! ### Claim theorems: AffineModel -/

/-- Claim C3: an AffineModel parsed from the dataString
`"1.0 0.0 0.0 1.0 5.0 -3.0"` maps the point `(0,0)` to `(5.0, -3.0)` under
`tform`, and maps `(1,1)` to `(6.0, -2.0)`. -/
theorem c3_affine_example :
    (AffineModel.from_dictDS "1.0 0.0 0.0 1.0 5.0 -3.0").map
      (fun A => A.tform2 [(0, 0), (1, 1)]) = .ok [(5, -3), (6, -2)] := by
  simp [AffineModel.from_dictDS, splitWS, splitWSAux, parseFloatL, parseUnsigned, digitsToNat,
    List.mapM, List.mapM.loop, Except.map,
    AffineModel.tform2, AffineModel.mk6, loadM, homog2, proj2, Matrix.mulVec, Matrix.dotProduct,
    Fin.sum_univ_four, Matrix.cons_val', Matrix.cons_val_zero, Matrix.cons_val_one,
    Matrix.head_cons, Matrix.empty_val', Matrix.cons_val_fin_one, Matrix.head_fin_const]
  norm_num

/-- Claim C5: for an AffineModel with non-singular matrix, applying `tform`
and then `inverse_tform` returns the original batch of points unchanged,
for 2-D batches and for 3-D batches (exact arithmetic). -/
theorem c5_roundtrip (a b c d e f : ℚ) (h : (AffineModel.mk6 a b c d e f).M.det ≠ 0)
    (pts2 : List (ℚ × ℚ)) (pts3 : List (ℚ × ℚ × ℚ)) :
    (AffineModel.mk6 a b c d e f).inverse_tform2
        ((AffineModel.mk6 a b c d e f).tform2 pts2) = .ok pts2 ∧
    (AffineModel.mk6 a b c d e f).inverse_tform3
        ((AffineModel.mk6 a b c d e f).tform3 pts3) = .ok pts3 := by
  have h' : (loadM a b c d e f).det ≠ 0 := h
  simp only [AffineModel.inverse_tform2, AffineModel.inverse_tform3, AffineModel.tform2,
    AffineModel.tform3, AffineModel.mk6]
  rw [npLinalgInv, if_neg h']
  simp only [Except.map, List.map_map]
  constructor
  · have hcomp :
        ((fun p => proj2 (((loadM a b c d e f).det⁻¹ • (loadM a b c d e f).adjugate).mulVec
            (homog2 p))) ∘
          fun p => proj2 ((loadM a b c d e f).mulVec (homog2 p))) = id :=
      funext fun p => loadM_roundtrip2 a b c d e f h' p
    rw [hcomp, List.map_id]
  · have hcomp :
        ((fun p => proj3 (((loadM a b c d e f).det⁻¹ • (loadM a b c d e f).adjugate).mulVec
            (homog3 p))) ∘
          fun p => proj3 ((loadM a b c d e f).mulVec (homog3 p))) = id :=
      funext fun p => loadM_roundtrip3 a b c d e f h' p
    rw [hcomp, List.map_id]

/-- Witness for C5 at the concrete model `AffineModel(2,0,0,3,1,1)` and the
batches `[(5,7)]` and `[(1,2,3)]`. -/
theorem c5_roundtrip_witness :
    (AffineModel.mk6 2 0 0 3 1 1).M.det ≠ 0 ∧
    (AffineModel.mk6 2 0 0 3 1 1).inverse_tform2
        ((AffineModel.mk6 2 0 0 3 1 1).tform2 [(5, 7)]) = .ok [(5, 7)] ∧
    (AffineModel.mk6 2 0 0 3 1 1).inverse_tform3
        ((AffineModel.mk6 2 0 0 3 1 1).tform3 [(1, 2, 3)]) = .ok [(1, 2, 3)] := by
  have hdet : (AffineModel.mk6 2 0 0 3 1 1).M.det ≠ 0 := by
    show (loadM 2 0 0 3 1 1).det ≠ 0
    rw [det_loadM]; norm_num
  exact ⟨hdet, (c5_roundtrip 2 0 0 3 1 1 hdet [(5, 7)] [(1, 2, 3)]).1,
    (c5_roundtrip 2 0 0 3 1 1 hdet [(5, 7)] [(1, 2, 3)]).2⟩

/-- Claim C7 (code_bug evaluation): inverting the near-singular model
`AffineModel(1e-8, 0, 0, 1e-8, 0, 0)` (determinant `1e-16`) raises nothing:
`inverse_tform` silently returns the huge numeric result. The code contains
no SingularTransformError and no determinant guard; only an exactly
singular matrix raises (numpy's LinAlgError). -/
theorem c7_no_guard :
    (AffineModel.mk6 (1 / 100000000) 0 0 (1 / 100000000) 0 0).inverse_tform2 [(1, 1)] =
      .ok [(100000000, 100000000)] := by
  have hdet : (loadM (1 / 100000000) 0 0 (1 / 100000000) 0 0).det ≠ 0 := by
    rw [det_loadM]; norm_num
  have hAB : loadM (1 / 100000000) 0 0 (1 / 100000000) 0 0 *
      loadM 100000000 0 0 100000000 0 0 = 1 := by
    ext i j
    fin_cases i <;> fin_cases j <;>
      simp [loadM, Matrix.mul_apply, Fin.sum_univ_four, Matrix.one_apply, Matrix.vecHead, Matrix.vecTail]
  rw [AffineModel.inverse_tform2,
    show (AffineModel.mk6 (1 / 100000000) 0 0 (1 / 100000000) 0 0).M =
      loadM (1 / 100000000) 0 0 (1 / 100000000) 0 0 from rfl,
    npLinalgInv_eq _ _ hdet hAB]
  simp [Except.map, loadM_mulVec, homog2, proj2]

/-- Claim C8 counterexample: `AffineModel(2,0,0,2,0,0).invert()` returns a
model whose scalar parameter `M00` is the default `1` while its stored
matrix entry `M[0,0]` is `1/2`: the matrix/parameter invariant fails on the
result of `invert`. -/
theorem c8_cex :
    (AffineModel.mk6 2 0 0 2 0 0).invert.map (fun Ai => (Ai.M00, Ai.M 0 0)) =
      .ok (1, 1 / 2) ∧ (1 : ℚ) ≠ 1 / 2 := by
  constructor
  · have hdet : (loadM 2 0 0 2 0 0).det ≠ 0 := by
      rw [det_loadM]; norm_num
    have hAB : loadM 2 0 0 2 0 0 * loadM (1 / 2) 0 0 (1 / 2) 0 0 = 1 := by
      ext i j
      fin_cases i <;> fin_cases j <;>
        simp [loadM, Matrix.mul_apply, Fin.sum_univ_four, Matrix.one_apply, Matrix.vecHead, Matrix.vecTail]
    rw [AffineModel.invert,
      show (AffineModel.mk6 2 0 0 2 0 0).M = loadM 2 0 0 2 0 0 from rfl,
      npLinalgInv_eq _ _ hdet hAB]
    simp [Except.map, loadM]
  · norm_num

/-- Claim C8 amended: the matrix/parameter invariant holds for construction
from six scalars and for `from_dict`; `invert` returns a new model whose
matrix is the exact two-sided algebraic inverse of the input's, but whose
six scalar parameters keep the constructor defaults `1,0,0,1,0,0`. -/
theorem c8_amended (a b c d e f : ℚ) (s : String) (A A2 B : AffineModel) :
    affineInvariant (AffineModel.mk6 a b c d e f) ∧
    (AffineModel.from_dictDS s = .ok A → affineInvariant A) ∧
    (A2.invert = .ok B →
      A2.M * B.M = 1 ∧ B.M * A2.M = 1 ∧
      B.M00 = 1 ∧ B.M01 = 0 ∧ B.M10 = 0 ∧ B.M11 = 1 ∧ B.B0 = 0 ∧ B.B1 = 0) := by
  refine ⟨rfl, ?_, ?_⟩
  · intro h
    rw [AffineModel.from_dictDS] at h
    split at h
    · injection h with h
      subst h
      rfl
    · exact absurd h (by simp)
  · intro h
    rw [AffineModel.invert] at h
    rw [npLinalgInv] at h
    split at h
    · exact absurd h (by simp [Except.map])
    · next hdet =>
      simp only [Except.map] at h
      injection h with h
      subst h
      exact ⟨mul_smulAdj _ hdet, smulAdj_mul _ hdet, rfl, rfl, rfl, rfl, rfl, rfl⟩

/-- Witness for C8 amended: concrete instances for each conjunct, with the
`from_dict` and `invert` hypotheses discharged at concrete inputs. -/
theorem c8_amended_witness :
    affineInvariant (AffineModel.mk6 2 0 0 2 0 0) ∧
    affineInvariant (AffineModel.mk6 1 0 0 1 5 (-3)) ∧
    (AffineModel.mk6 2 0 0 2 0 0).M *
      (AffineModel.mk 1 0 0 1 0 0 (loadM (1 / 2) 0 0 (1 / 2) 0 0)).M = 1 := by
  have hdet : (loadM 2 0 0 2 0 0).det ≠ 0 := by
    rw [det_loadM]; norm_num
  have hAB : loadM 2 0 0 2 0 0 * loadM (1 / 2) 0 0 (1 / 2) 0 0 = 1 := by
    ext i j
    fin_cases i <;> fin_cases j <;>
      simp [loadM, Matrix.mul_apply, Fin.sum_univ_four, Matrix.one_apply, Matrix.vecHead, Matrix.vecTail]
  have hinv : (AffineModel.mk6 2 0 0 2 0 0).invert =
      .ok (AffineModel.mk 1 0 0 1 0 0 (loadM (1 / 2) 0 0 (1 / 2) 0 0)) := by
    rw [AffineModel.invert,
      show (AffineModel.mk6 2 0 0 2 0 0).M = loadM 2 0 0 2 0 0 from rfl,
      npLinalgInv_eq _ _ hdet hAB]
    simp [Except.map]
  have hparse : AffineModel.from_dictDS "1.0 0.0 0.0 1.0 5.0 -3.0" =
      .ok (AffineModel.mk6 1 0 0 1 5 (-3)) := by
    simp [AffineModel.from_dictDS, splitWS, splitWSAux, parseFloatL, parseUnsigned, digitsToNat,
      List.mapM, List.mapM.loop, AffineModel.mk6]
  refine ⟨(c8_amended 2 0 0 2 0 0 "" (AffineModel.mk6 1 0 0 1 0 0)
      (AffineModel.mk6 2 0 0 2 0 0) (AffineModel.mk 1 0 0 1 0 0 (loadM (1 / 2) 0 0 (1 / 2) 0 0))).1,
    (c8_amended 1 0 0 1 5 (-3) "1.0 0.0 0.0 1.0 5.0 -3.0" (AffineModel.mk6 1 0 0 1 5 (-3))
      (AffineModel.mk6 2 0 0 2 0 0)
      (AffineModel.mk 1 0 0 1 0 0 (loadM (1 / 2) 0 0 (1 / 2) 0 0))).2.1 hparse,
    ((c8_amended 2 0 0 2 0 0 "" (AffineModel.mk6 1 0 0 1 0 0) (AffineModel.mk6 2 0 0 2 0 0)
      (AffineModel.mk 1 0 0 1 0 0 (loadM (1 / 2) 0 0 (1 / 2) 0 0))).2.2 hinv).1⟩


/-! ### Token lemmas for the dataString round trip (claim C4) -/

theorem isDigit_ne_space {c : Char} (h : c.isDigit = true) : c ≠ ' ' := by
  rintro rfl; exact absurd h (by decide)

theorem digitChar_toNat {k : ℕ} (h : k < 10) : (digitChar k).toNat = 48 + k := by
  interval_cases k <;> decide

theorem digitChar_isDigit {k : ℕ} (h : k < 10) : (digitChar k).isDigit = true := by
  interval_cases k <;> decide

theorem digitsToNat_append (l : List Char) (c : Char) :
    digitsToNat (l ++ [c]) = 10 * digitsToNat l + (c.toNat - 48) := by
  simp [digitsToNat, List.foldl_append]
  omega

theorem natDigitsAux_spec (fuel : ℕ) : ∀ n, n ≤ fuel →
    digitsToNat (natDigitsAux fuel n) = n ∧
    (∀ c ∈ natDigitsAux fuel n, c.isDigit = true) ∧
    (n ≠ 0 → natDigitsAux fuel n ≠ []) := by
  induction fuel with
  | zero =>
    intro n hn
    interval_cases n
    refine ⟨rfl, by simp [natDigitsAux], by simp⟩
  | succ fuel ih =>
    intro n hn
    by_cases h0 : n = 0
    · subst h0
      refine ⟨by simp [natDigitsAux, digitsToNat], by simp [natDigitsAux], by simp⟩
    · have hrec : n / 10 ≤ fuel := by
        have := Nat.div_lt_self (Nat.pos_of_ne_zero h0) (by norm_num : (1:ℕ) < 10)
        omega
      obtain ⟨ih1, ih2, _⟩ := ih (n / 10) hrec
      have hd : natDigitsAux (fuel + 1) n = natDigitsAux fuel (n / 10) ++ [digitChar (n % 10)] := by
        rw [natDigitsAux, if_neg h0]
      refine ⟨?_, ?_, ?_⟩
      · rw [hd, digitsToNat_append, ih1, digitChar_toNat (Nat.mod_lt n (by norm_num))]
        omega
      · intro c hc
        rw [hd] at hc
        rcases List.mem_append.mp hc with h | h
        · exact ih2 c h
        · simp at h
          subst h
          exact digitChar_isDigit (Nat.mod_lt n (by norm_num))
      · intro _
        rw [hd]
        simp

theorem natDigits_spec (n : ℕ) : digitsToNat (natDigits n) = n := by
  by_cases h0 : n = 0
  · subst h0; decide
  · rw [natDigits, if_neg h0]
    exact (natDigitsAux_spec n n le_rfl).1

theorem natDigits_digits (n : ℕ) : ∀ c ∈ natDigits n, c.isDigit = true := by
  by_cases h0 : n = 0
  · subst h0; decide
  · rw [natDigits, if_neg h0]
    exact (natDigitsAux_spec n n le_rfl).2.1

theorem natDigits_ne_nil (n : ℕ) : natDigits n ≠ [] := by
  by_cases h0 : n = 0
  · subst h0; decide
  · rw [natDigits, if_neg h0]
    exact (natDigitsAux_spec n n le_rfl).2.2 h0

theorem natDigitsAux_length (fuel : ℕ) : ∀ n d, n ≤ fuel → n < 10 ^ d →
    (natDigitsAux fuel n).length ≤ d := by
  induction fuel with
  | zero =>
    intro n d hn _
    interval_cases n
    simp [natDigitsAux]
  | succ fuel ih =>
    intro n d hn hd
    by_cases h0 : n = 0
    · subst h0; simp [natDigitsAux]
    · have hd1 : 1 ≤ d := by
        by_contra hc
        interval_cases d
        · simp at hd; omega
      have hrec : n / 10 ≤ fuel := by
        have := Nat.div_lt_self (Nat.pos_of_ne_zero h0) (by norm_num : (1:ℕ) < 10)
        omega
      have hlt : n / 10 < 10 ^ (d - 1) := by
        rw [Nat.div_lt_iff_lt_mul (by norm_num : (0:ℕ) < 10)]
        calc n < 10 ^ d := hd
          _ = 10 ^ (d - 1) * 10 := by
            rw [← pow_succ]
            congr 1
            omega
      rw [natDigitsAux, if_neg h0]
      have := ih (n / 10) (d - 1) hrec hlt
      simp only [List.length_append, List.length_cons, List.length_nil]
      omega

theorem natDigits_length_le {n d : ℕ} (h : n < 10 ^ d) (hd : 1 ≤ d) :
    (natDigits n).length ≤ d := by
  by_cases h0 : n = 0
  · subst h0; simpa [natDigits] using hd
  · rw [natDigits, if_neg h0]
    exact natDigitsAux_length n n d le_rfl h

theorem pad6_length {k : ℕ} (h : k < 1000000) : (pad6 k).length = 6 := by
  have : (natDigits k).length ≤ 6 := natDigits_length_le (by norm_num at h ⊢; omega) (by norm_num)
  simp only [pad6, List.length_append, List.length_replicate]
  omega

theorem pad6_digits (k : ℕ) : ∀ c ∈ pad6 k, c.isDigit = true := by
  intro c hc
  rcases List.mem_append.mp hc with h | h
  · have := List.eq_of_mem_replicate h
    subst this; decide
  · exact natDigits_digits k c h

theorem digitsToNat_replicate_zero (m : ℕ) (l : List Char) :
    digitsToNat (List.replicate m '0' ++ l) = digitsToNat l := by
  induction m with
  | zero => simp
  | succ m ih =>
    rw [List.replicate_succ, List.cons_append]
    show digitsToNat _ = _
    simpa [digitsToNat] using ih

theorem digitsToNat_pad6 (k : ℕ) : digitsToNat (pad6 k) = k := by
  rw [pad6, digitsToNat_replicate_zero, natDigits_spec]

theorem takeWhile_append_all (p : Char → Bool) (l r : List Char) (h : ∀ c ∈ l, p c = true) :
    (l ++ r).takeWhile p = l ++ r.takeWhile p := by
  induction l with
  | nil => simp
  | cons c t ih =>
    have hc : p c = true := h c (by simp)
    simp only [List.cons_append, List.takeWhile_cons, hc, if_true]
    rw [ih (fun c hc => h c (by simp [hc]))]

theorem dropWhile_append_all (p : Char → Bool) (l r : List Char) (h : ∀ c ∈ l, p c = true) :
    (l ++ r).dropWhile p = r.dropWhile p := by
  induction l with
  | nil => simp
  | cons c t ih =>
    have hc : p c = true := h c (by simp)
    simp only [List.cons_append, List.dropWhile_cons, hc, if_true]
    exact ih (fun c hc => h c (by simp [hc]))

theorem parseUnsigned_format (j r : ℕ) (hr : r < 1000000) :
    parseUnsigned (natDigits j ++ '.' :: pad6 r) = some ((j : ℚ) + (r : ℚ) / 1000000) := by
  have htake : (natDigits j ++ '.' :: pad6 r).takeWhile Char.isDigit = natDigits j := by
    rw [takeWhile_append_all _ _ _ (natDigits_digits j)]
    simp [List.takeWhile_cons]
  have hdrop : (natDigits j ++ '.' :: pad6 r).dropWhile Char.isDigit = '.' :: pad6 r := by
    rw [dropWhile_append_all _ _ _ (natDigits_digits j)]
    simp [List.dropWhile_cons]
  rw [parseUnsigned]
  simp only [htake, hdrop]
  have hall : (pad6 r).all Char.isDigit = true := List.all_eq_true.mpr (pad6_digits r)
  have hne : (natDigits j).isEmpty = false := by
    cases h : natDigits j with
    | nil => exact absurd h (natDigits_ne_nil j)
    | cons a t => rfl
  simp [hall, hne]
  rw [natDigits_spec, digitsToNat_pad6, pad6_length hr]
  norm_num

theorem parseFloatL_digit_head (c : Char) (t : List Char) (h : c.isDigit = true) :
    parseFloatL (c :: t) = parseUnsigned (c :: t) := by
  have h1 : c ≠ '-' := by rintro rfl; exact absurd h (by decide)
  have h2 : c ≠ '+' := by rintro rfl; exact absurd h (by decide)
  rw [parseFloatL, if_neg h1, if_neg h2]

theorem parseFloatL_fmtTok (q : ℚ) (h : (q * 1000000).den = 1) :
    parseFloatL (fmtTok q) = some q := by
  have hm : ((q * 1000000).num : ℚ) = q * 1000000 := (Rat.den_eq_one_iff _).mp h
  set m : ℤ := (q * 1000000).num with hmdef
  have hround : round (q * 1000000) = m := by
    rw [← hm, round_intCast]
  have hq : q = (m : ℚ) / 1000000 := by
    rw [hm]; field_simp
  have hr : m.natAbs % 1000000 < 1000000 := Nat.mod_lt _ (by norm_num)
  have hval : ((m.natAbs / 1000000 : ℕ) : ℚ) + ((m.natAbs % 1000000 : ℕ) : ℚ) / 1000000 =
      (m.natAbs : ℚ) / 1000000 := by
    have hdm : m.natAbs / 1000000 * 1000000 + m.natAbs % 1000000 = m.natAbs := by
      omega
    have h2 : ((m.natAbs / 1000000 : ℕ) : ℚ) * 1000000 + ((m.natAbs % 1000000 : ℕ) : ℚ) =
        (m.natAbs : ℚ) := by
      exact_mod_cast hdm
    rw [← h2]
    ring
  rcases lt_or_le m 0 with hneg | hpos
  · have hfmt : fmtTok q = '-' ::
        (natDigits (m.natAbs / 1000000) ++ '.' :: pad6 (m.natAbs % 1000000)) := by
      rw [fmtTok, hround, if_pos hneg]
      simp
    rw [hfmt, parseFloatL, if_pos rfl, parseUnsigned_format _ _ hr]
    have habs : (m.natAbs : ℚ) = -(m : ℚ) := by
      rw [Int.cast_natAbs, abs_of_neg (by exact_mod_cast hneg)]
      push_cast
      ring
    simp only [Option.map_some']
    rw [hval, habs, hq]
    congr 1
    ring
  · have hfmt : fmtTok q =
        natDigits (m.natAbs / 1000000) ++ '.' :: pad6 (m.natAbs % 1000000) := by
      rw [fmtTok, hround, if_neg (by omega)]
      simp
    cases hnd : natDigits (m.natAbs / 1000000) with
    | nil => exact absurd hnd (natDigits_ne_nil _)
    | cons c t =>
      have hcdig : c.isDigit = true := natDigits_digits _ c (by rw [hnd]; simp)
      rw [hfmt, hnd, List.cons_append, parseFloatL_digit_head c _ hcdig, ← List.cons_append,
        ← hnd, parseUnsigned_format _ _ hr]
      have habs : (m.natAbs : ℚ) = (m : ℚ) := by
        rw [Int.cast_natAbs, abs_of_nonneg (by exact_mod_cast hpos)]
      rw [hval, habs, ← hq]

theorem splitWSAux_append_tok (t : List Char) (h : ∀ c ∈ t, c ≠ ' ') :
    ∀ l cur, splitWSAux (t ++ l) cur = splitWSAux l (cur ++ t) := by
  induction t with
  | nil => intro l cur; simp
  | cons c t ih =>
    intro l cur
    have hc : c ≠ ' ' := h c (by simp)
    rw [List.cons_append, splitWSAux, if_neg hc, ih (fun x hx => h x (by simp [hx]))]
    congr 1
    simp

theorem splitWSAux_space (rest : List Char) (cur : List Char) :
    splitWSAux (' ' :: rest) cur =
      if cur.isEmpty then splitWSAux rest [] else cur :: splitWSAux rest [] := by
  rw [splitWSAux, if_pos rfl]

theorem splitWS_token_cons (t rest : List Char) (hne : t ≠ []) (h : ∀ c ∈ t, c ≠ ' ') :
    splitWS (t ++ ' ' :: rest) = t :: splitWS rest := by
  rw [splitWS, splitWSAux_append_tok t h (' ' :: rest) [], List.nil_append,
    splitWSAux_space, if_neg (by simpa using hne)]
  rfl

theorem splitWS_single (t : List Char) (hne : t ≠ []) (h : ∀ c ∈ t, c ≠ ' ') :
    splitWS t = [t] := by
  have := splitWSAux_append_tok t h [] []
  rw [List.append_nil, List.nil_append] at this
  rw [splitWS, this, splitWSAux, if_neg (by simpa using hne)]

theorem fmtTok_no_space (q : ℚ) : ∀ c ∈ fmtTok q, c ≠ ' ' := by
  intro c hc
  rw [fmtTok] at hc
  simp only [List.mem_append, List.mem_cons] at hc
  rcases hc with (h1 | h1) | h1 | h1
  · split at h1
    · simp only [List.mem_singleton] at h1
      subst h1
      decide
    · simp at h1
  · exact isDigit_ne_space (natDigits_digits _ c h1)
  · subst h1
    decide
  · exact isDigit_ne_space (pad6_digits _ c h1)

theorem fmtTok_ne_nil (q : ℚ) : fmtTok q ≠ [] := by
  apply List.ne_nil_of_length_pos
  rw [fmtTok]
  simp only [List.length_append, List.length_cons]
  omega

/-- Claim C4 amended: for every valid six-token dataString, parsing and
re-emitting yields the six tokens in the fixed order `M00 M01 M10 M11 B0 B1`
formatted with six fractional digits, and (when each value has at most six
fractional digits, so that `%f` does not round) the emitted dataString
parses back to exactly the same model — the round trip preserves the six
values and their order, not the bytes. -/
theorem c4_round (s : String) (a b c d e f : ℚ)
    (hp : AffineModel.from_dictDS s = .ok (AffineModel.mk6 a b c d e f))
    (ha : (a * 1000000).den = 1) (hb : (b * 1000000).den = 1) (hc : (c * 1000000).den = 1)
    (hd : (d * 1000000).den = 1) (he : (e * 1000000).den = 1) (hf : (f * 1000000).den = 1) :
    AffineModel.from_dictDS (AffineModel.mk6 a b c d e f).dataStringOut =
      .ok (AffineModel.mk6 a b c d e f) := by
  have hds : (AffineModel.mk6 a b c d e f).dataStringOut =
      String.mk (fmtTok a ++ ' ' :: fmtTok b ++ ' ' :: fmtTok c ++ ' ' :: fmtTok d ++
        ' ' :: fmtTok e ++ ' ' :: fmtTok f) := rfl
  have hsplit : splitWS (fmtTok a ++ ' ' :: (fmtTok b ++ ' ' :: (fmtTok c ++ ' ' :: (fmtTok d ++
      ' ' :: (fmtTok e ++ ' ' :: fmtTok f))))) =
      [fmtTok a, fmtTok b, fmtTok c, fmtTok d, fmtTok e, fmtTok f] := by
    rw [splitWS_token_cons _ _ (fmtTok_ne_nil a) (fmtTok_no_space a),
      splitWS_token_cons _ _ (fmtTok_ne_nil b) (fmtTok_no_space b),
      splitWS_token_cons _ _ (fmtTok_ne_nil c) (fmtTok_no_space c),
      splitWS_token_cons _ _ (fmtTok_ne_nil d) (fmtTok_no_space d),
      splitWS_token_cons _ _ (fmtTok_ne_nil e) (fmtTok_no_space e),
      splitWS_single _ (fmtTok_ne_nil f) (fmtTok_no_space f)]
  rw [hds, AffineModel.from_dictDS]
  show (match (splitWS (fmtTok a ++ ' ' :: fmtTok b ++ ' ' :: fmtTok c ++ ' ' :: fmtTok d ++
      ' ' :: fmtTok e ++ ' ' :: fmtTok f)).mapM parseFloatL with
    | some [a, b, c, d, e, f] => Except.ok (AffineModel.mk6 a b c d e f)
    | _ => Except.error PyErr.valueError) = Except.ok (AffineModel.mk6 a b c d e f)
  simp only [List.append_assoc, List.cons_append]
  rw [hsplit]
  simp [List.mapM, List.mapM.loop, Option.bind, parseFloatL_fmtTok a ha, parseFloatL_fmtTok b hb,
    parseFloatL_fmtTok c hc, parseFloatL_fmtTok d hd, parseFloatL_fmtTok e he,
    parseFloatL_fmtTok f hf]

/-- Claim C4 counterexample: the valid six-token dataString
`"1.0 0.0 0.0 1.0 5.0 -3.0"` re-emits as
`"1.000000 0.000000 0.000000 1.000000 5.000000 -3.000000"` (the `%f`
format), which is not byte-for-byte the input string. -/
theorem c4_cex :
    (AffineModel.from_dictDS "1.0 0.0 0.0 1.0 5.0 -3.0").map AffineModel.dataStringOut =
      .ok "1.000000 0.000000 0.000000 1.000000 5.000000 -3.000000" ∧
    ("1.000000 0.000000 0.000000 1.000000 5.000000 -3.000000" : String) ≠
      "1.0 0.0 0.0 1.0 5.0 -3.0" := by
  constructor
  · have hparse : AffineModel.from_dictDS "1.0 0.0 0.0 1.0 5.0 -3.0" =
        .ok (AffineModel.mk6 1 0 0 1 5 (-3)) := by
      simp [AffineModel.from_dictDS, splitWS, splitWSAux, parseFloatL, parseUnsigned, digitsToNat,
        List.mapM, List.mapM.loop, AffineModel.mk6]
    rw [hparse]
    simp only [Except.map]
    congr 1
    have e1 : round ((1 : ℚ) * 1000000) = 1000000 := by norm_num [round_eq]
    have e0 : round ((0 : ℚ) * 1000000) = 0 := by norm_num [round_eq]
    have e5 : round ((5 : ℚ) * 1000000) = 5000000 := by norm_num [round_eq]
    have e3 : round ((-3 : ℚ) * 1000000) = -3000000 := by norm_num [round_eq]
    rw [show (AffineModel.mk6 1 0 0 1 5 (-3)).dataStringOut =
      String.mk (fmtTok 1 ++ ' ' :: fmtTok 0 ++ ' ' :: fmtTok 0 ++ ' ' :: fmtTok 1 ++
        ' ' :: fmtTok 5 ++ ' ' :: fmtTok (-3)) from rfl]
    simp only [fmtTok, e1, e0, e5, e3]
    decide
  · decide

/-- Witness for C4 amended at the dataString
`"2.000000 0.000000 0.000000 2.000000 5.000000 -3.000000"`. -/
theorem c4_round_witness :
    AffineModel.from_dictDS "2.000000 0.000000 0.000000 2.000000 5.000000 -3.000000" =
      .ok (AffineModel.mk6 2 0 0 2 5 (-3)) ∧
    ((2 : ℚ) * 1000000).den = 1 ∧
    AffineModel.from_dictDS (AffineModel.mk6 2 0 0 2 5 (-3)).dataStringOut =
      .ok (AffineModel.mk6 2 0 0 2 5 (-3)) := by
  have hparse : AffineModel.from_dictDS "2.000000 0.000000 0.000000 2.000000 5.000000 -3.000000" =
      .ok (AffineModel.mk6 2 0 0 2 5 (-3)) := by
    simp [AffineModel.from_dictDS, splitWS, splitWSAux, parseFloatL, parseUnsigned, digitsToNat,
      List.mapM, List.mapM.loop, AffineModel.mk6]
  have d2 : ((2 : ℚ) * 1000000).den = 1 := by
    have h : (2 : ℚ) * 1000000 = 2000000 := by norm_num
    rw [h]
    rfl
  have d0 : ((0 : ℚ) * 1000000).den = 1 := by
    have h : (0 : ℚ) * 1000000 = 0 := by norm_num
    rw [h]
    rfl
  have d5 : ((5 : ℚ) * 1000000).den = 1 := by
    have h : (5 : ℚ) * 1000000 = 5000000 := by norm_num
    rw [h]
    rfl
  have d3 : ((-3 : ℚ) * 1000000).den = 1 := by
    have h : (-3 : ℚ) * 1000000 = -3000000 := by norm_num
    rw [h]
    rfl
  exact ⟨hparse, d2, c4_round _ 2 0 0 2 5 (-3) hparse d2 d0 d0 d2 d5 d3⟩

/-! ### Claim theorems: ThinPlateSplineTransform -/

/-- Claim C2 counterexample: parsing a ThinPlateSpline dataString with
`ndims = 2`, `nLm = 0` (empty landmark blocks) succeeds, and `apply` on the
resulting transform returns the zero vector `[0, 0]`, not the input point
`[3, 4]`: the zero-landmark identity passthrough fails for a parsed
transform, whatever the radial kernel computes. -/
theorem c2_cex :
    (processDataString none [] 2 0).map
      (fun d => TPS.apply (fun _ => 0) (TPS.mk (some d) none none) [3, 4]) = .ok [0, 0] ∧
    ([0, 0] : List ℚ) ≠ [3, 4] := by
  constructor
  · decide
  · decide

/-- Claim C6 counterexample: with `ndims = 2`, `nLm = 1`, a first binary
block of decoded length 7 — which differs from `ndims*ndims + ndims = 6` —
and a second block of the correct length 4, `_process_dataString` succeeds
instead of raising: the first block's length is never checked against
`ndims*ndims + ndims`, only reshape of its first `ndims*ndims` entries must
succeed, and `bVec` silently receives the 3 leftover values. -/
theorem c6_cex :
    exceptIsOk (processDataString (some (List.replicate 7 0)) (List.replicate 4 0) 2 1) = true ∧
    7 ≠ 2 * 2 + 2 := by
  constructor
  · decide
  · decide

/-- Claim C2 amended: `apply` returns the input point unchanged exactly
when no landmark data is configured (the instance has no `dMtxDat`
attribute, e.g. constructed with `dataString=None`); a transform parsed
with `nLm = 0` instead returns the zero vector of length `ndims` — the
empty radial-basis sum — regardless of the kernel. -/
theorem c2_amended (nrm : List ℚ → ℚ) (t : TPS) (pt : List ℚ) :
    (t.data = none → TPS.apply nrm t pt = pt) ∧
    (∀ d, t.data = some d → d.nLm = 0 →
      TPS.apply nrm t pt = List.replicate d.ndims 0) := by
  constructor
  · intro h
    rw [TPS.apply, h]
  · intro d hd h0
    rw [TPS.apply, hd]
    show computeDeformationContribution nrm d pt = _
    rw [computeDeformationContribution, h0]
    rfl

/-- Failure condition of numpy reshape. -/
theorem reshape_eq_none_iff (l : List ℚ) (r c : ℕ) :
    reshape l r c = none ↔ l.length ≠ r * c := by
  rw [reshape]
  split <;> simp [*]

/-- Success condition of numpy reshape. -/
theorem reshape_isSome_iff (l : List ℚ) (r c : ℕ) :
    (∃ x, reshape l r c = some x) ↔ l.length = r * c := by
  rw [reshape]
  split <;> simp [*]

/-- Claim C6 amended: `_process_dataString` succeeds on decoded blocks
`b1` (the first block, `none` for `"null"`) and `b2` (the second block) iff
the second block's decoded length equals `2*ndims*nLm` exactly AND the
first block, when present, has decoded length at least `ndims*ndims` —
mismatches raise a RenderError during parsing. The claim's second-block
validation holds, but the first block is only bounded below: a first block
longer than `ndims*ndims + ndims` is accepted silently, with `bVec` taking
the whole remainder unvalidated. -/
theorem c6_amended (b1 : Option (List ℚ)) (b2 : List ℚ) (n m : ℕ) :
    exceptIsOk (processDataString b1 b2 n m) = true ↔
      (∀ v, b1 = some v → n * n ≤ v.length) ∧ b2.length = 2 * (n * m) := by
  have htake : (b2.take (n * m)).length = min (n * m) b2.length := List.length_take _ _
  have hdrop : (b2.drop (n * m)).length = b2.length - n * m := List.length_drop _ _
  cases b1 with
  | none =>
    rcases h1 : reshape (b2.take (n * m)) n m with _ | sp <;>
      rcases h2 : reshape (b2.drop (n * m)) n m with _ | dm <;>
        simp only [processDataString, h1, h2, exceptIsOk]
    · rw [reshape_eq_none_iff, htake] at h1
      constructor
      · intro h
        exact absurd h (by simp)
      · rintro ⟨h3, hL⟩
        exfalso
        omega
    · rw [reshape_eq_none_iff, htake] at h1
      constructor
      · intro h
        exact absurd h (by simp)
      · rintro ⟨h3, hL⟩
        exfalso
        omega
    · rw [reshape_eq_none_iff, hdrop] at h2
      have e1 : (b2.take (n * m)).length = n * m := (reshape_isSome_iff _ _ _).mp ⟨sp, h1⟩
      rw [htake] at e1
      constructor
      · intro h
        exact absurd h (by simp)
      · rintro ⟨h3, hL⟩
        exfalso
        omega
    · have e1 : (b2.take (n * m)).length = n * m := (reshape_isSome_iff _ _ _).mp ⟨sp, h1⟩
      have e2 : (b2.drop (n * m)).length = n * m := (reshape_isSome_iff _ _ _).mp ⟨dm, h2⟩
      rw [htake] at e1
      rw [hdrop] at e2
      constructor
      · intro _
        exact ⟨by simp, by omega⟩
      · intro _
        trivial
  | some v =>
    have htakev : (v.take (n * n)).length = min (n * n) v.length := List.length_take _ _
    rcases h0 : reshape (v.take (n * n)) n n with _ | am
    · rw [show processDataString (some v) b2 n m = .error .renderError from by
        simp only [processDataString, h0]]
      rw [reshape_eq_none_iff, htakev] at h0
      simp only [exceptIsOk]
      constructor
      · intro h
        exact absurd h (by simp)
      · rintro ⟨h3, hL⟩
        have := h3 v rfl
        exfalso
        omega
    · have e0 : (v.take (n * n)).length = n * n := (reshape_isSome_iff _ _ _).mp ⟨am, h0⟩
      rw [htakev] at e0
      rcases h1 : reshape (b2.take (n * m)) n m with _ | sp <;>
        rcases h2 : reshape (b2.drop (n * m)) n m with _ | dm <;>
          simp only [processDataString, h0, h1, h2, exceptIsOk]
      · rw [reshape_eq_none_iff, htake] at h1
        constructor
        · intro h
          exact absurd h (by simp)
        · rintro ⟨h3, hL⟩
          exfalso
          omega
      · rw [reshape_eq_none_iff, htake] at h1
        constructor
        · intro h
          exact absurd h (by simp)
        · rintro ⟨h3, hL⟩
          exfalso
          omega
      · rw [reshape_eq_none_iff, hdrop] at h2
        have e1 : (b2.take (n * m)).length = n * m := (reshape_isSome_iff _ _ _).mp ⟨sp, h1⟩
        rw [htake] at e1
        constructor
        · intro h
          exact absurd h (by simp)
        · rintro ⟨h3, hL⟩
          exfalso
          omega
      · have e1 : (b2.take (n * m)).length = n * m := (reshape_isSome_iff _ _ _).mp ⟨sp, h1⟩
        have e2 : (b2.drop (n * m)).length = n * m := (reshape_isSome_iff _ _ _).mp ⟨dm, h2⟩
        rw [htake] at e1
        rw [hdrop] at e2
        constructor
        · intro _
          refine ⟨?_, by omega⟩
          rintro v' hv'
          injection hv' with hv'
          subst hv'
          omega
        · intro _
          trivial

/-- Witness for C2 amended: a transform with no data applied to `[1,2]`,
and a parsed `nLm = 0` transform applied to `[3,4]`. -/
theorem c2_amended_witness :
    TPS.apply (fun _ => 0) (TPS.mk none none none) [1, 2] = [1, 2] ∧
    TPS.apply (fun _ => 0)
      (TPS.mk (some (TPSData.mk 2 0 none none [[], []] [[], []])) none none) [3, 4] =
      List.replicate 2 0 := by
  exact ⟨(c2_amended (fun _ => 0) (TPS.mk none none none) [1, 2]).1 rfl,
    (c2_amended (fun _ => 0)
      (TPS.mk (some (TPSData.mk 2 0 none none [[], []] [[], []])) none none) [3, 4]).2
      (TPSData.mk 2 0 none none [[], []] [[], []]) rfl rfl⟩

/-- Witness for C6 amended: a well-sized pair of blocks (first block length
`6 = 2*2+2`, second block length `4 = 2*2*1`) parses successfully. -/
theorem c6_amended_witness :
    exceptIsOk (processDataString (some (List.replicate 6 0)) (List.replicate 4 0) 2 1) = true := by
  refine (c6_amended (some (List.replicate 6 0)) (List.replicate 4 0) 2 1).mpr ⟨?_, by simp⟩
  intro v hv
  injection hv with hv
  subst hv
  simp


/-! ### Claim theorems: TileSpec and resolved collections -/

/-- Claim C1 (code_bug evaluation): `TileSpec.from_dict`'s transform loop
drops a well-formed `ref` record (the `ReferenceTransform` is constructed
but the append statement sits inside the `'leaf'` branch, so `tforms`
comes back empty), silently skips a `'list'` record (no branch matches
that `type`), and appends non-affine leaves verbatim — so the chain does
not get one entry per specList element as the claim requires. -/
theorem c1_code_eval :
    parseTformsCode [RawTransform.ref "r1"] = .ok [] ∧
    parseTformsCode [RawTransform.tlist
      [RawTransform.leaf affineClassName "1.0 0.0 0.0 1.0 0.0 0.0" none]] = .ok [] ∧
    parseTformsCode [RawTransform.leaf "other.Class" "payload" (some "tid")] =
      .ok [ParsedTransform.generic "other.Class" "payload" (some "tid")] :=
  ⟨rfl, rfl, rfl⟩

/-- Claim C9 (code_bug evaluation): on a well-formed map-shape document
with one tile and one transform, `ResolvedTileSpecMap.from_dict` raises a
NameError (the unassigned local `tf` in `tf.Transform()`); on a
well-formed list-shape document, `ResolvedTileSpecCollection.from_dict`
raises a KeyError for the misspelled key `'tranformCount'` (the wire key
its own `to_dict` writes is `'transformCount'`). Only a map-shape document
with zero transforms parses, yielding its tiles. -/
theorem c9_code_eval :
    ResolvedTileSpecMap.from_dict
      ⟨[("t1", sampleTileDoc)],
        [("tid1", RawTransform.leaf affineClassName "1.0 0.0 0.0 1.0 0.0 0.0" (some "tid1"))]⟩ =
      .error (.nameError "tf") ∧
    ResolvedTileSpecCollection.from_dict
      ⟨1, [sampleTileDoc], 1,
        [RawTransform.leaf affineClassName "1.0 0.0 0.0 1.0 0.0 0.0" (some "tid1")], none⟩ =
      .error (.keyError "tranformCount") ∧
    ResolvedTileSpecMap.from_dict ⟨[("t1", sampleTileDoc)], []⟩ = .ok ([sampleTileSpec], []) :=
  ⟨rfl, rfl, rfl⟩

/-- Claim C10: whenever a tile document carries an `inputfilters` entry
with a non-empty specList, `TileSpec.from_dict` raises (KeyError on a
record without `type`, otherwise the TypeError from calling `Filter()`
without its required `classname` argument) and never returns a TileSpec
with parsed filters. -/
theorem c10_filters (d : TileDoc) (fs : List FilterDoc) (h : d.inputfilters = some fs)
    (hne : fs ≠ []) :
    exceptIsOk (TileSpec.from_dict d) = false := by
  cases fs with
  | nil => exact absurd rfl hne
  | cons f rest =>
    cases htf : parseTformsCode d.transforms with
    | error e => simp [TileSpec.from_dict, htf, exceptIsOk]
    | ok tfs =>
      cases hty : f.ty with
      | none => simp [TileSpec.from_dict, htf, h, parseFiltersCode, hty, exceptIsOk]
      | some s => simp [TileSpec.from_dict, htf, h, parseFiltersCode, hty, exceptIsOk]

/-- Witness for C10 at a concrete tile document with one filter record. -/
theorem c10_filters_witness :
    sampleFilterTileDoc.inputfilters = some [⟨none, "some.filter.Class", []⟩] ∧
    ([(⟨none, "some.filter.Class", []⟩ : FilterDoc)] : List FilterDoc) ≠ [] ∧
    exceptIsOk (TileSpec.from_dict sampleFilterTileDoc) = false := by
  refine ⟨rfl, by simp, c10_filters _ _ rfl (by simp)⟩

end Render
